import Mathlib

/-!
# Verification of `create_new_year_including_opening_transactions.py`

Shallow embedding of the GnuCash new-year rollover tool.  The external
GnuCash library is modelled as a pure data structure: an account tree whose
nodes carry the attributes the program reads (`GetType`, `GetPlaceholder`,
`GetCommodity`, `GetBalance`, `get_full_name`, `GetSplitList`), a file system
as an association list from path to book file, and the price database as a
function supplied by the environment.  Balances and split amounts/values are
rationals (GnuCash numerics are exact rationals).  Account full names are
dot-joined, matching the separator convention the script itself uses when it
builds `equity_opening_full_name`.
-/

set_option autoImplicit false

namespace NewYearTool

/-- GnuCash account type tags used by the script.  `invalid` stands for the
type a freshly allocated account has before any `SetType` call. -/
inductive AcctType where
  | asset
  | bank
  | liability
  | equity
  | income
  | expense
  | trading
  | root
  | invalid
  deriving DecidableEq, Repr

/-- The attributes of one account that the script reads or writes.
`splitParents` models `GetSplitList()`: one entry per split sitting in this
account, holding the split's parent-transaction reference (`split.parent`),
which can be null (`none`) for the data-integrity anomaly the purge step
tolerates. -/
structure AccData where
  name : String
  acctType : AcctType
  placeholder : Bool
  commodity : Option String
  balance : Rat
  splitParents : List (Option Nat)
  deriving DecidableEq, Repr

/-- An account tree: a node with its data and its child accounts, in order. -/
inductive Acct where
  | node (data : AccData) (children : List Acct)
  deriving Repr

/-- The data stored at the root node of an account (sub)tree. -/
def Acct.data : Acct → AccData
  | .node d _ => d

/-- The children of an account node. -/
def Acct.children : Acct → List Acct
  | .node _ cs => cs

/-- Dot-joined full-name step: the full name of a child of an account whose
own full name is `pre`.  Children of the book root get `pre = ""` and their
full name is just their own name, matching `gnc_account_get_full_name`. -/
def joinName (pre n : String) : String :=
  if pre = "" then n else pre ++ "." ++ n

/-- Split a character list at the separator `'.'`. -/
def splitDotsAux : List Char → List Char → List String
  | [], acc => [String.mk acc.reverse]
  | c :: rest, acc =>
      if c = '.' then String.mk acc.reverse :: splitDotsAux rest []
      else splitDotsAux rest (c :: acc)

/-- Split a full name into its dot-separated segments
(the separator handling inside `lookup_by_full_name`). -/
def splitDots (s : String) : List String :=
  splitDotsAux s.data []

mutual

/-- Pre-order traversal of an account subtree whose full name is
`joinName pre data.name`, listing every node's full name with its data.
This is the `walk` generator of the script paired with `get_full_name`. -/
def preorderAcc : String → Acct → List (String × AccData)
  | pre, .node d cs =>
      (joinName pre d.name, d) :: preorderList (joinName pre d.name) cs

/-- Pre-order traversal of a list of sibling subtrees under prefix `pre`. -/
def preorderList : String → List Acct → List (String × AccData)
  | _, [] => []
  | pre, a :: as => preorderAcc pre a ++ preorderList pre as

end

/-- Pre-order walk of the whole book starting at the root account.  The root
account's full name is `""` (as `gnc_account_get_full_name` returns for the
root); its children's full names carry no prefix. -/
def preorder (root : Acct) : List (String × AccData) :=
  ("", root.data) :: preorderList "" root.children

/-- Model of `root_account.get_descendants()`: every account strictly below the root,
pre-order, with full names. -/
def descendantsNamed (root : Acct) : List (String × AccData) :=
  preorderList "" root.children

mutual

/-- Segment-wise descent of `gnc_account_lookup_by_full_name`: consume one
name segment per tree level, returning the account reached. -/
def lookupSegs : Acct → List String → Option Acct
  | a, [] => some a
  | .node _ cs, seg :: rest => lookupChild cs seg rest

/-- Find the first child whose name matches `seg` and keep descending. -/
def lookupChild : List Acct → String → List String → Option Acct
  | [], _, _ => none
  | c :: cs, seg, rest =>
      if c.data.name = seg then lookupSegs c rest else lookupChild cs seg rest

end

/-- Model of `account.lookup_by_full_name(full)`: split on the separator and descend. -/
def lookup_by_full_name (root : Acct) (full : String) : Option Acct :=
  lookupSegs root (splitDots full)

/-- Model of `parent.append_child(new_account)`: append a fresh leaf account. -/
def appendChild (a : Acct) (nd : AccData) : Acct :=
  .node a.data (a.children ++ [.node nd []])

mutual

/-- Append a fresh leaf account below the node reached by descending the
given name segments (mutating the account object that
`lookup_by_full_name` found, in the pure-tree rendering). -/
def appendAtSegs : Acct → List String → AccData → Acct
  | a, [], nd => appendChild a nd
  | .node d cs, seg :: rest, nd => .node d (appendAtSegsList cs seg rest nd)

/-- Descend into the first child named `seg` (the one `lookupChild` picks). -/
def appendAtSegsList : List Acct → String → List String → AccData → List Acct
  | [], _, _, _ => []
  | c :: cs, seg, rest, nd =>
      if c.data.name = seg then appendAtSegs c rest nd :: cs
      else c :: appendAtSegsList cs seg rest nd

end

/-- Append a fresh leaf account below the root's last child (the account
object the script just created with `root_account.append_child`). -/
def appendUnderLastChild (root : Acct) (nd : AccData) : Acct :=
  match root with
  | .node d cs => .node d (appendUnderLastAux cs nd)
where
  appendUnderLastAux : List Acct → AccData → List Acct
    | [], nd => [.node nd []]
    | [c], nd => [appendChild c nd]
    | c :: c' :: cs, nd => c :: appendUnderLastAux (c' :: cs) nd

/-! ## Balance extraction (`get_account_balances`) -/

/-- The script's `ACCOUNT_TYPES_TO_EXCLUDE` list. -/
def ACCOUNT_TYPES_TO_EXCLUDE : List AcctType :=
  [.income, .expense, .trading, .root, .equity]

/-- Python dict assignment `balances[k] = v`: overwrite the value in place if
the key is present, otherwise append the binding at the end. -/
def dictInsert (l : List (String × Rat)) (k : String) (v : Rat) : List (String × Rat) :=
  if l.any (fun p => p.1 = k) then
    l.map (fun p => if p.1 = k then (k, v) else p)
  else l ++ [(k, v)]

/-- Model of `get_account_balances(book)`: pre-order walk from the root; skip
placeholder accounts and accounts of an excluded type (but keep walking into
their children); record `balances[full_name] = GetBalance()` for the rest. -/
def get_account_balances (root : Acct) : List (String × Rat) :=
  (preorder root).foldl
    (fun balances p =>
      if p.2.placeholder then balances
      else if p.2.acctType ∈ ACCOUNT_TYPES_TO_EXCLUDE then balances
      else dictInsert balances p.1 p.2.balance)
    []

/-! ## The new-year file preparation (`prepare_new_year_file`) -/

/-- A GnuCash file as the tool sees it: the account tree plus the set of
transactions, the latter abstracted to identifiers — the purge step only ever
destroys transactions wholesale through the parent references of splits, and
never reads any other attribute of a pre-existing transaction. -/
structure BookFile where
  root : Acct
  trxIds : List Nat
  deriving Repr

/-- The warning message the purge logs for a split with no parent. -/
def orphanSplitWarning (fullName : String) : String :=
  "Split without parent transaction found in account " ++ fullName ++ "."

/-- The purge loop body over one account's split list: a split with a null
parent appends a warning and is skipped; otherwise the parent transaction is
destroyed (its id is added to the destroyed collection; destroying an already
destroyed transaction is a no-op, so collecting ids loses nothing). -/
def purgeSplits (fullName : String) (ps : List (Option Nat))
    (st : List Nat × List String) : List Nat × List String :=
  ps.foldl
    (fun a sp =>
      match sp with
      | none => (a.1, a.2 ++ [orphanSplitWarning fullName])
      | some t => (a.1 ++ [t], a.2))
    st

/-- The full purge double loop: `for account in root.get_descendants(): for
split in account.GetSplitList(): ...`, returning the destroyed transaction
ids and the warnings, in program order. -/
def collectDestroyed (root : Acct) : List Nat × List String :=
  (descendantsNamed root).foldl (fun a p => purgeSplits p.1 p.2.splitParents a) ([], [])

/-- A split survives the purge when its parent reference is null or points at
a transaction that was not destroyed. -/
def keepSplit (destroyed : List Nat) : Option Nat → Bool
  | none => true
  | some t => !(decide (t ∈ destroyed))

mutual

/-- Effect of the `transaction.Destroy()` calls on the split lists: a
destroyed transaction takes all of its splits with it, wherever they sit;
splits with a null parent stay behind. -/
def removeSplits : Acct → List Nat → Acct
  | .node d cs, destroyed =>
      .node { d with splitParents := d.splitParents.filter (keepSplit destroyed) }
        (removeSplitsList cs destroyed)

/-- The map `removeSplits` over sibling lists. -/
def removeSplitsList : List Acct → List Nat → List Acct
  | [], _ => []
  | c :: cs, destroyed => removeSplits c destroyed :: removeSplitsList cs destroyed

end

/-- Delete all transactions from the in-session copy, as the purge loop in
`prepare_new_year_file` does, returning the purged book and the warnings. -/
def purgeBook (bf : BookFile) : BookFile × List String :=
  ({ root := removeSplits bf.root (collectDestroyed bf.root).1,
     trxIds := bf.trxIds.filter
       (fun t => !(decide (t ∈ (collectDestroyed bf.root).1))) },
   (collectDestroyed bf.root).2)

/-- The file system: paths bound to GnuCash files, most recent binding first. -/
def lookupFile (fs : List (String × BookFile)) (path : String) : Option BookFile :=
  match fs with
  | [] => none
  | (p, b) :: rest => if p = path then some b else lookupFile rest path

/-- Model of `prepare_new_year_file(previous_file, new_file)`: refuse to overwrite an
existing target, copy the previous file byte-for-byte, open the copy and
purge every transaction in the session.  On success returns the updated file
system (the on-disk copy is the unpurged previous book until `session.save()`
runs), the in-session purged book, and the purge warnings.  On error the file
system is untouched (no result carries a changed one). -/
def prepare_new_year_file (fs : List (String × BookFile))
    (previous_file new_file : String) :
    Except String (List (String × BookFile) × BookFile × List String) :=
  if (lookupFile fs new_file).isSome then
    .error ("Target file " ++ new_file ++ " already exists.")
  else
    match lookupFile fs previous_file with
    | none => .error ("FileNotFoundError: " ++ previous_file)
    | some bf =>
        let pw := purgeBook bf
        .ok ((new_file, bf) :: fs, pw.1, pw.2)

/-! ## Opening-transaction synthesis (the loop body of `main`) -/

/-- Calendar date (`opening_date`). -/
structure Date where
  day : Nat
  month : Nat
  year : Nat
  deriving DecidableEq, Repr

/-- One split of a synthesized transaction: the account it is posted to
(by full name), `SetAmount` and `SetValue`. -/
structure Split where
  account : String
  amount : Rat
  value : Rat
  deriving DecidableEq, Repr

/-- One synthesized opening transaction, with the fields the script sets. -/
structure Trx where
  description : String
  date : Date
  currency : String
  splits : List Split
  deriving DecidableEq, Repr

/-- The fixed data of the synthesis loop: the transaction currency commodity
(identified by its code, as the commodity-table lookup resolves it), the
configured description, the opening date, the equity opening-balances account
(its full name, and the commodity `split_equity.GetAccount().GetCommodity()`
returns), and the price database
(`price_db.convert_balance_nearest_price_t64`), which is an external call
that can fail. -/
structure SynthEnv where
  currency : String
  descText : String
  odate : Date
  equityAccountName : String
  equityCommodity : Option String
  priceDb : Rat → Option String → Option String → Date → Except String Rat

/-- The mutable data of the synthesis loop: the new book's account tree and
the transactions committed so far. -/
structure SynthState where
  root : Acct
  trxs : List Trx
  deriving Repr

/-- Loop step 'a': `lookup_by_full_name(account_name)`; if absent, create a
bare account carrying the full dotted key as its name and append it directly
under the root (`SetName` and `append_child` only: type, placeholder and
commodity stay at the defaults of a fresh account). Returns the account
object the splits are posted to and the new tree. -/
def lookupOrCreate (root : Acct) (full : String) : AccData × Acct :=
  match lookup_by_full_name root full with
  | some a => (a.data, root)
  | none =>
      let nd : AccData :=
        { name := full, acctType := .invalid, placeholder := false,
          commodity := none, balance := 0, splitParents := [] }
      (nd, appendChild root nd)

/-- Line 169 of the script: `equity_value = balance if (asset_commodity ==
equity_commodity) else price_db.convert_balance_nearest_price_t64(...)`. -/
def openingEquityValue (env : SynthEnv) (assetCommodity : Option String)
    (balance : Rat) : Except String Rat :=
  if assetCommodity = env.equityCommodity then .ok balance
  else env.priceDb balance assetCommodity env.equityCommodity env.odate

/-- One iteration of `for account_name, balance in account_balances.items()`:
nothing happens for a zero balance; otherwise look up or create the account,
convert the balance if the commodities differ, and commit a transaction with
an asset split (`SetAmount(balance)`, `SetValue(equity_value)`) and an equity
split (`SetAmount(equity_value.neg())`, `SetValue(equity_value.neg())`). -/
def stepEntry (env : SynthEnv) (st : SynthState) (e : String × Rat) :
    Except String SynthState :=
  if e.2 ≠ 0 then
    match openingEquityValue env (lookupOrCreate st.root e.1).1.commodity e.2 with
    | .error m => .error m
    | .ok v =>
        .ok { root := (lookupOrCreate st.root e.1).2,
              trxs := st.trxs ++
                [{ description := env.descText, date := env.odate,
                   currency := env.currency,
                   splits := [{ account := e.1, amount := e.2, value := v },
                              { account := env.equityAccountName,
                                amount := -v, value := -v }] }] }
  else .ok st

/-- The whole synthesis loop over the balance snapshot, aborting the run on
the first failing external call (as the uncaught Python exception would). -/
def synthesize (env : SynthEnv) (st : SynthState) :
    List (String × Rat) → Except String SynthState
  | [] => .ok st
  | e :: es =>
      match stepEntry env st e with
      | .error m => .error m
      | .ok st' => synthesize env st' es

/-! ## Equity-account bootstrap (lines 120-141 of `main`) -/

/-- The account created when the equity placeholder is missing:
`SetName(equity_name)`, `SetType(ACCT_TYPE_EQUITY)`, `SetPlaceholder(True)`. -/
def mkEquityPlaceholder (equity_name : String) : AccData :=
  { name := equity_name, acctType := .equity, placeholder := true,
    commodity := none, balance := 0, splitParents := [] }

/-- The account created when the opening-balances account is missing:
`SetName(equity_opening_name)`, `SetType(ACCT_TYPE_EQUITY)`,
`SetCommodity(transaction_currency)`. -/
def mkEquityOpening (equity_opening_name currency : String) : AccData :=
  { name := equity_opening_name, acctType := .equity, placeholder := false,
    commodity := some currency, balance := 0, splitParents := [] }

/-- Lines 120-141: look up the equity placeholder by full name and create it
under the root when absent; then look up the dot-joined opening-balances full
name and create that account under the placeholder object when absent.
Returns the updated tree and the commodity of the equity account object that
the splits will use. On the lookup-hit branches nothing is written. -/
def ensureEquityAccounts (root : Acct) (equity_name equity_opening_name : String)
    (transaction_currency : String) : Acct × Option String :=
  let full := equity_name ++ "." ++ equity_opening_name
  match lookup_by_full_name root equity_name with
  | some _ =>
      match lookup_by_full_name root full with
      | some eq => (root, eq.data.commodity)
      | none =>
          (appendAtSegs root (splitDots equity_name)
             (mkEquityOpening equity_opening_name transaction_currency),
           some transaction_currency)
  | none =>
      let root1 := appendChild root (mkEquityPlaceholder equity_name)
      match lookup_by_full_name root1 full with
      | some eq => (root1, eq.data.commodity)
      | none =>
          (appendUnderLastChild root1
             (mkEquityOpening equity_opening_name transaction_currency),
           some transaction_currency)

/-! ## The run orchestrator (`main`) -/

/-- Model of `config[k]`: a missing key raises `KeyError`. -/
def cfgGet (config : List (String × String)) (k : String) : Except String String :=
  match config.lookup k with
  | some v => .ok v
  | none => .error ("KeyError: " ++ k)

/-- External-world state threaded through a run: the file system, whether
each of the two sessions is currently open, and whether `session_new.save()`
has run.  Saved on-disk transaction content is abstracted to the flag plus
the returned transaction list; no claim reads it back. -/
structure MainState where
  fs : List (String × BookFile)
  prevOpen : Bool
  newOpen : Bool
  saved : Bool
  deriving Repr

/-- The environment of a run: the price database of the new book. -/
structure RunEnv where
  priceDb : Rat → Option String → Option String → Date → Except String Rat

/-- Replace the binding of `path` (written by `session.save()`). -/
def writeFile (fs : List (String × BookFile)) (path : String) (b : BookFile) :
    List (String × BookFile) :=
  match fs with
  | [] => []
  | (p, b') :: rest =>
      if p = path then (p, b) :: rest else (p, b') :: writeFile rest path b

/-- Model of `main(previous_file, new_file, opening_date, config)`, with the state of
the outside world made explicit.  Returns the final state and either the
synthesized transactions or the uncaught exception's message.  The four
config lookups run first; `prepare_new_year_file` copies and purges (opening
the new session); the previous file is then opened read-only; balances are
extracted; the equity accounts are bootstrapped; the loop synthesizes one
transaction per nonzero balance; finally the new book is saved and both
sessions are ended — those last three calls run only on the path where
nothing failed, since no `finally` block protects them. -/
def main (env : RunEnv) (config : List (String × String))
    (previous_file new_file : String) (opening_date : Date)
    (fs0 : List (String × BookFile)) :
    MainState × Except String (List Trx) :=
  let s0 : MainState := ⟨fs0, false, false, false⟩
  match cfgGet config "equity_name" with
  | .error m => (s0, .error m)
  | .ok equity_name =>
  match cfgGet config "equity_opening_name" with
  | .error m => (s0, .error m)
  | .ok equity_opening_name =>
  match cfgGet config "opening_transaction_text" with
  | .error m => (s0, .error m)
  | .ok opening_transaction_text =>
  match cfgGet config "currency" with
  | .error m => (s0, .error m)
  | .ok currency =>
  match prepare_new_year_file fs0 previous_file new_file with
  | .error m => (s0, .error m)
  | .ok pr =>
  let s1 : MainState := { s0 with fs := pr.1, newOpen := true }
  match lookupFile pr.1 previous_file with
  | none => (s1, .error ("FileNotFoundError: " ++ previous_file))
  | some book_prev =>
  let s2 : MainState := { s1 with prevOpen := true }
  let account_balances := get_account_balances book_prev.root
  let er := ensureEquityAccounts pr.2.1.root equity_name equity_opening_name currency
  let senv : SynthEnv :=
    { currency := currency, descText := opening_transaction_text,
      odate := opening_date,
      equityAccountName := equity_name ++ "." ++ equity_opening_name,
      equityCommodity := er.2, priceDb := env.priceDb }
  match synthesize senv ⟨er.1, []⟩ account_balances with
  | .error m => (s2, .error m)
  | .ok fin =>
  ({ s2 with
      fs := writeFile s2.fs new_file { root := fin.root, trxIds := pr.2.1.trxIds },
      saved := true, newOpen := false, prevOpen := false }, .ok fin.trxs)

/-! ## Derived views used to state the claims -/

mutual

/-- An account subtree with every split list erased: what "the account
hierarchy" of a book is, independently of transaction contents. -/
def skeleton : Acct → Acct
  | .node d cs => .node { d with splitParents := [] } (skeletonList cs)

/-- The map `skeleton` over sibling lists. -/
def skeletonList : List Acct → List Acct
  | [] => []
  | c :: cs => skeleton c :: skeletonList cs

end

mutual

/-- Total number of splits held by the accounts of a subtree. -/
def totalSplits : Acct → Nat
  | .node d cs => d.splitParents.length + totalSplitsList cs

/-- The sum `totalSplits` over sibling lists. -/
def totalSplitsList : List Acct → Nat
  | [] => 0
  | c :: cs => totalSplits c + totalSplitsList cs

end

/-- The non-null parent-transaction references of a split list. -/
def parentsOf (ps : List (Option Nat)) : List Nat :=
  ps.filterMap id

/-- The warnings a split list produces during the purge: one per split with a
null parent, in order. -/
def orphansOf (fullName : String) (ps : List (Option Nat)) : List String :=
  ps.filterMap (fun sp =>
    match sp with
    | none => some (orphanSplitWarning fullName)
    | some _ => none)

/-- Concatenation of a function over a list (declarative flattening). -/
def flatOver {α β : Type} (l : List α) (f : α → List β) : List β :=
  l.foldr (fun a acc => f a ++ acc) []

/-- Every transaction referenced by some split of some descendant account:
exactly the transactions the purge loop destroys. -/
def allParents (root : Acct) : List Nat :=
  flatOver (descendantsNamed root) (fun p => parentsOf p.2.splitParents)

/-- Every warning the purge loop logs, in order. -/
def allWarnings (root : Acct) : List String :=
  flatOver (descendantsNamed root) (fun p => orphansOf p.1 p.2.splitParents)

/-- The identifying key of a synthesized transaction: the account and amount
of its first (asset-side) split. -/
def trxKey (t : Trx) : Option (String × Rat) :=
  t.splits.head?.map (fun s => (s.account, s.amount))

/-! ## Helper lemmas -/

theorem mem_flatOver {α β : Type} (l : List α) (f : α → List β) (b : β) :
    b ∈ flatOver l f ↔ ∃ a ∈ l, b ∈ f a := by
  induction l with
  | nil => simp [flatOver]
  | cons x xs ih => simp [flatOver, List.foldr_cons] at ih ⊢; rw [ih]

theorem filterEqNil {α : Type} (p : α → Bool) :
    ∀ l : List α, (∀ a ∈ l, p a = false) → l.filter p = [] := by
  intro l h
  induction l with
  | nil => rfl
  | cons a l ih =>
      rw [List.filter_cons, h a (by simp)]
      simp only [Bool.false_eq_true, if_false]
      exact ih fun a ha => h a (by simp [ha])

theorem purgeSplits_eq (fullName : String) (ps : List (Option Nat)) :
    ∀ st : List Nat × List String,
      purgeSplits fullName ps st = (st.1 ++ parentsOf ps, st.2 ++ orphansOf fullName ps) := by
  induction ps with
  | nil => intro st; simp [purgeSplits, parentsOf, orphansOf]
  | cons sp ps ih =>
      intro st
      cases sp with
      | none =>
          simp only [purgeSplits, List.foldl_cons] at ih ⊢
          rw [ih]
          simp [parentsOf, orphansOf]
      | some t =>
          simp only [purgeSplits, List.foldl_cons] at ih ⊢
          rw [ih]
          simp [parentsOf, orphansOf]

theorem collectDestroyed_eq (root : Acct) :
    collectDestroyed root = (allParents root, allWarnings root) := by
  unfold collectDestroyed allParents allWarnings
  generalize descendantsNamed root = l
  have main : ∀ (l : List (String × AccData)) (st : List Nat × List String),
      l.foldl (fun a p => purgeSplits p.1 p.2.splitParents a) st =
        (st.1 ++ flatOver l (fun p => parentsOf p.2.splitParents),
         st.2 ++ flatOver l (fun p => orphansOf p.1 p.2.splitParents)) := by
    intro l
    induction l with
    | nil => intro st; simp [flatOver]
    | cons p l ih =>
        intro st
        rw [List.foldl_cons, purgeSplits_eq, ih]
        simp [flatOver, List.append_assoc]
  rw [main]
  simp

mutual

theorem skeleton_removeSplits (a : Acct) (d : List Nat) :
    skeleton (removeSplits a d) = skeleton a := by
  cases a with
  | node dat cs =>
      simp only [removeSplits, skeleton]
      rw [skeletonList_removeSplitsList cs d]

theorem skeletonList_removeSplitsList (cs : List Acct) (d : List Nat) :
    skeletonList (removeSplitsList cs d) = skeletonList cs := by
  cases cs with
  | nil => rfl
  | cons c cs =>
      simp only [removeSplitsList, skeletonList]
      rw [skeleton_removeSplits c d, skeletonList_removeSplitsList cs d]

end

mutual

theorem totalSplits_remove_eq_zero (a : Acct) (d : List Nat) (pre : String)
    (h : ∀ p ∈ preorderAcc pre a, ∀ sp ∈ p.2.splitParents, keepSplit d sp = false) :
    totalSplits (removeSplits a d) = 0 := by
  cases a with
  | node dat cs =>
      simp only [removeSplits, totalSplits]
      rw [filterEqNil (keepSplit d) dat.splitParents
            (h (joinName pre dat.name, dat) (by simp [preorderAcc]))]
      simp only [List.length_nil, Nat.zero_add]
      exact totalSplitsList_remove_eq_zero cs d (joinName pre dat.name)
        (fun p hp => h p (by simp [preorderAcc, hp]))

theorem totalSplitsList_remove_eq_zero (cs : List Acct) (d : List Nat) (pre : String)
    (h : ∀ p ∈ preorderList pre cs, ∀ sp ∈ p.2.splitParents, keepSplit d sp = false) :
    totalSplitsList (removeSplitsList cs d) = 0 := by
  cases cs with
  | nil => rfl
  | cons c cs =>
      simp only [removeSplitsList, totalSplitsList]
      rw [totalSplits_remove_eq_zero c d pre
            (fun p hp => h p (by simp [preorderList, hp])),
          totalSplitsList_remove_eq_zero cs d pre
            (fun p hp => h p (by simp [preorderList, hp]))]

end

theorem appendAtSegs_data (a : Acct) (segs : List String) (nd : AccData) :
    (appendAtSegs a segs nd).data = a.data := by
  cases a with
  | node d cs => cases segs <;> rfl

mutual

theorem lookupSegs_appendAtSegs (a : Acct) (segs : List String) (nd : AccData)
    (x : Acct) (h : lookupSegs a segs = some x) :
    lookupSegs (appendAtSegs a segs nd) segs = some (appendChild x nd) := by
  cases segs with
  | nil =>
      cases a with
      | node d cs =>
          simp only [lookupSegs, Option.some.injEq] at h
          subst h
          rfl
  | cons seg rest =>
      cases a with
      | node d cs =>
          simp only [lookupSegs, appendAtSegs] at h ⊢
          exact lookupChild_appendAtSegsList cs seg rest nd x h

theorem lookupChild_appendAtSegsList (cs : List Acct) (seg : String)
    (rest : List String) (nd : AccData) (x : Acct)
    (h : lookupChild cs seg rest = some x) :
    lookupChild (appendAtSegsList cs seg rest nd) seg rest =
      some (appendChild x nd) := by
  cases cs with
  | nil => simp [lookupChild] at h
  | cons c cs =>
      by_cases hname : c.data.name = seg
      · rw [lookupChild, if_pos hname] at h
        simp only [appendAtSegsList, if_pos hname]
        rw [lookupChild, if_pos (by rw [appendAtSegs_data]; exact hname)]
        exact lookupSegs_appendAtSegs c rest nd x h
      · rw [lookupChild, if_neg hname] at h
        simp only [appendAtSegsList, if_neg hname]
        rw [lookupChild, if_neg hname]
        exact lookupChild_appendAtSegsList cs seg rest nd x h

end

theorem dictInsert_of_fresh (l : List (String × Rat)) (k : String) (v : Rat)
    (h : ∀ q ∈ l, q.1 ≠ k) : dictInsert l k v = l ++ [(k, v)] := by
  have hfalse : ¬ (l.any (fun p => decide (p.1 = k)) = true) := by
    simp only [List.any_eq_true, decide_eq_true_eq]
    rintro ⟨q, hq, hk⟩
    exact h q hq hk
  rw [dictInsert, if_neg hfalse]

/-- The predicate under which an account is recorded by the extractor. -/
def recordedAccount (p : String × AccData) : Bool :=
  !p.2.placeholder && !(decide (p.2.acctType ∈ ACCOUNT_TYPES_TO_EXCLUDE))

theorem gab_foldl (ps : List (String × AccData)) :
    ∀ acc : List (String × Rat),
      (ps.map Prod.fst).Nodup →
      (∀ p ∈ ps, ∀ q ∈ acc, q.1 ≠ p.1) →
      ps.foldl
        (fun balances p =>
          if p.2.placeholder then balances
          else if p.2.acctType ∈ ACCOUNT_TYPES_TO_EXCLUDE then balances
          else dictInsert balances p.1 p.2.balance) acc
      = acc ++ (ps.filter recordedAccount).map (fun p => (p.1, p.2.balance)) := by
  induction ps with
  | nil => intro acc _ _; simp
  | cons p ps ih =>
      intro acc hnd hdisj
      rw [List.map_cons, List.nodup_cons] at hnd
      have hhead : p.1 ∉ ps.map Prod.fst := hnd.1
      have hnd' : (ps.map Prod.fst).Nodup := hnd.2
      by_cases hp : p.2.placeholder
      · rw [List.foldl_cons, if_pos hp, List.filter_cons,
          show recordedAccount p = false by simp [recordedAccount, hp]]
        simp only [Bool.false_eq_true, if_false]
        exact ih acc hnd' (fun p' hp' q hq => hdisj p' (by simp [hp']) q hq)
      · by_cases ht : p.2.acctType ∈ ACCOUNT_TYPES_TO_EXCLUDE
        · rw [List.foldl_cons, if_neg (by simp [hp]), if_pos ht, List.filter_cons,
            show recordedAccount p = false by simp [recordedAccount, hp, ht]]
          simp only [Bool.false_eq_true, if_false]
          exact ih acc hnd' (fun p' hp' q hq => hdisj p' (by simp [hp']) q hq)
        · rw [List.foldl_cons, if_neg (by simp [hp]), if_neg ht,
            dictInsert_of_fresh acc p.1 p.2.balance
              (fun q hq => hdisj p (by simp) q hq),
            List.filter_cons,
            show recordedAccount p = true by simp [recordedAccount, hp, ht]]
          simp only [if_true]
          rw [ih (acc ++ [(p.1, p.2.balance)]) hnd' ?_]
          · simp [List.append_assoc]
          · intro p' hp' q hq
            rcases List.mem_append.mp hq with hq | hq
            · exact hdisj p' (by simp [hp']) q hq
            · simp only [List.mem_singleton] at hq
              subst hq
              intro hcontra
              exact hhead (hcontra ▸ List.mem_map_of_mem Prod.fst hp')

/-- The shape of every transaction the synthesis loop commits. -/
def openingShape (env : SynthEnv) (t : Trx) : Prop :=
  ∃ a b v, t = ⟨env.descText, env.odate, env.currency,
    [⟨a, b, v⟩, ⟨env.equityAccountName, -v, -v⟩]⟩

theorem synthesize_spec (env : SynthEnv) :
    ∀ (entries : List (String × Rat)) (st fin : SynthState),
      synthesize env st entries = .ok fin →
      fin.trxs.map trxKey =
        st.trxs.map trxKey ++
          (entries.filter (fun e => decide (e.2 ≠ 0))).map (fun e => some (e.1, e.2)) ∧
      ∀ t ∈ fin.trxs, t ∈ st.trxs ∨ openingShape env t := by
  intro entries
  induction entries with
  | nil =>
      intro st fin h
      simp only [synthesize, Except.ok.injEq] at h
      subst h
      exact ⟨by simp, fun t ht => Or.inl ht⟩
  | cons e es ih =>
      intro st fin h
      by_cases h0 : e.2 ≠ 0
      · rw [synthesize] at h
        rw [stepEntry, if_pos h0] at h
        cases hv : openingEquityValue env (lookupOrCreate st.root e.1).1.commodity e.2 with
        | error m => rw [hv] at h; exact absurd h (by simp)
        | ok v =>
            rw [hv] at h
            simp only at h
            obtain ⟨hmap, hmem⟩ := ih _ fin h
            constructor
            · rw [hmap]
              simp [trxKey, List.append_assoc, h0]
            · intro t ht
              rcases hmem t ht with htIn | hshape
              · rcases List.mem_append.mp htIn with htIn | htIn
                · exact Or.inl htIn
                · simp only [List.mem_singleton] at htIn
                  exact Or.inr ⟨e.1, e.2, v, htIn⟩
              · exact Or.inr hshape
      · rw [synthesize] at h
        rw [stepEntry, if_neg h0] at h
        simp only at h
        obtain ⟨hmap, hmem⟩ := ih st fin h
        refine ⟨?_, hmem⟩
        rw [hmap]
        simp only [List.filter_cons]
        simp [h0]

/-! ## Claims -/

/-- C1: starting from a book with no transactions, a successful synthesis run
creates exactly one opening transaction for each snapshot entry with nonzero
balance (keyed by the entry's account name and balance, in snapshot order)
and none for a zero-balance entry; every created transaction has exactly two
splits whose values are `v` and `-v`, so they sum to zero. -/
theorem opening_transactions_balanced (env : SynthEnv) (st fin : SynthState)
    (entries : List (String × Rat)) (h0 : st.trxs = [])
    (h : synthesize env st entries = .ok fin) :
    fin.trxs.map trxKey =
      (entries.filter (fun e => decide (e.2 ≠ 0))).map (fun e => some (e.1, e.2)) ∧
    ∀ t ∈ fin.trxs, t.splits.length = 2 ∧ (t.splits.map Split.value).sum = 0 ∧
      ∃ v : Rat, t.splits.map Split.value = [v, -v] := by
  obtain ⟨hmap, hmem⟩ := synthesize_spec env entries st fin h
  constructor
  · rw [hmap, h0]; simp
  · intro t ht
    rcases hmem t ht with htl | ⟨a, b, v, rfl⟩
    · rw [h0] at htl; cases htl
    · exact ⟨rfl, by simp, v, rfl⟩

/-- A synthesis environment for concrete runs: same-commodity path only. -/
def wEnvA : SynthEnv :=
  ⟨"EUR", "opening", ⟨1, 1, 2026⟩, "Equity.Opening", none, fun _ _ _ _ => .error "np"⟩

/-- An empty new book to synthesize into. -/
def wRootA : Acct := .node ⟨"Root", .root, false, none, 0, []⟩ []

/-- The final state of the concrete synthesis run used as witness. -/
def wFinA : SynthState :=
  ⟨.node ⟨"Root", .root, false, none, 0, []⟩
     [.node ⟨"A", .invalid, false, none, 0, []⟩ []],
   [⟨"opening", ⟨1, 1, 2026⟩, "EUR", [⟨"A", 5, 5⟩, ⟨"Equity.Opening", -5, -5⟩]⟩]⟩

theorem opening_transactions_balanced_witness :
    wFinA.trxs.map trxKey =
      (([("A", (5 : Rat)), ("B", 0)]).filter (fun e => decide (e.2 ≠ 0))).map
        (fun e => some (e.1, e.2)) ∧
    ∀ t ∈ wFinA.trxs, t.splits.length = 2 ∧ (t.splits.map Split.value).sum = 0 ∧
      ∃ v : Rat, t.splits.map Split.value = [v, -v] :=
  opening_transactions_balanced wEnvA ⟨wRootA, []⟩ wFinA
    [("A", 5), ("B", 0)] rfl (by rfl)

/-- C2: the extractor records exactly the non-placeholder accounts whose type
is outside the excluded set, walking the entire tree — children of skipped
nodes included — and keeping zero balances.  (The account full names must be
distinct, as they are in a well-formed book; with duplicates the Python dict
would overwrite earlier entries.) -/
theorem balance_extractor_type_filtering (root : Acct)
    (hnd : ((preorder root).map Prod.fst).Nodup) :
    get_account_balances root =
      ((preorder root).filter recordedAccount).map (fun p => (p.1, p.2.balance)) := by
  unfold get_account_balances
  rw [gab_foldl (preorder root) [] hnd (by simp)]
  simp

/-- A previous-year tree exercising the interesting cases: an equity account
(excluded) whose asset child must still be recorded, a zero-balance account
that must still be recorded, and a placeholder that must not be. -/
def wRootB : Acct := .node ⟨"Root", .root, false, none, 0, []⟩
  [.node ⟨"Equity", .equity, false, none, 3, []⟩
     [.node ⟨"Savings", .asset, false, some "EUR", 0, []⟩ []],
   .node ⟨"Assets", .asset, false, some "EUR", 5, []⟩ [],
   .node ⟨"Hidden", .asset, true, some "EUR", 7, []⟩ []]

theorem balance_extractor_type_filtering_witness :
    get_account_balances wRootB =
      ((preorder wRootB).filter recordedAccount).map (fun p => (p.1, p.2.balance)) :=
  balance_extractor_type_filtering wRootB (by decide)

/-- C3: each committed opening transaction carries an equity value `v` that
equals the balance unconverted when the asset account's commodity equals the
equity account's commodity, and is the price-database conversion result as of
the opening date when they differ. -/
theorem equity_value_conversion_branch (env : SynthEnv) (st st' : SynthState)
    (e : String × Rat) (hne : e.2 ≠ 0) (h : stepEntry env st e = .ok st') :
    ∃ v : Rat,
      st'.trxs = st.trxs ++ [⟨env.descText, env.odate, env.currency,
        [⟨e.1, e.2, v⟩, ⟨env.equityAccountName, -v, -v⟩]⟩] ∧
      ((lookupOrCreate st.root e.1).1.commodity = env.equityCommodity → v = e.2) ∧
      ((lookupOrCreate st.root e.1).1.commodity ≠ env.equityCommodity →
        env.priceDb e.2 (lookupOrCreate st.root e.1).1.commodity
          env.equityCommodity env.odate = .ok v) := by
  rw [stepEntry, if_pos hne] at h
  cases hv : openingEquityValue env (lookupOrCreate st.root e.1).1.commodity e.2 with
  | error m => rw [hv] at h; cases h
  | ok v =>
      rw [hv] at h
      simp only [Except.ok.injEq] at h
      subst h
      refine ⟨v, rfl, ?_, ?_⟩
      · intro hc
        rw [openingEquityValue, if_pos hc] at hv
        injection hv with h2
        exact h2.symm
      · intro hc
        rw [openingEquityValue, if_neg hc] at hv
        exact hv

/-- A one-account book whose commodity matches the equity commodity. -/
def wRootC : Acct := .node ⟨"Root", .root, false, none, 0, []⟩
  [.node ⟨"Assets", .asset, false, some "EUR", 9, []⟩ []]

/-- Environment with an equity account in EUR, for the unconverted branch. -/
def wEnvC : SynthEnv :=
  ⟨"EUR", "opening", ⟨1, 1, 2026⟩, "Equity.Opening", some "EUR",
   fun _ _ _ _ => .error "np"⟩

theorem equity_value_conversion_branch_witness :
    ∃ v : Rat,
      (⟨wRootC, [⟨"opening", ⟨1, 1, 2026⟩, "EUR",
          [⟨"Assets", 9, 9⟩, ⟨"Equity.Opening", -9, -9⟩]⟩]⟩ : SynthState).trxs =
        (⟨wRootC, []⟩ : SynthState).trxs ++
          [⟨wEnvC.descText, wEnvC.odate, wEnvC.currency,
            [⟨("Assets", (9 : Rat)).1, ("Assets", (9 : Rat)).2, v⟩,
             ⟨wEnvC.equityAccountName, -v, -v⟩]⟩] ∧
      ((lookupOrCreate (⟨wRootC, []⟩ : SynthState).root "Assets").1.commodity =
          wEnvC.equityCommodity → v = 9) ∧
      ((lookupOrCreate (⟨wRootC, []⟩ : SynthState).root "Assets").1.commodity ≠
          wEnvC.equityCommodity →
        wEnvC.priceDb 9 (lookupOrCreate (⟨wRootC, []⟩ : SynthState).root "Assets").1.commodity
          wEnvC.equityCommodity wEnvC.odate = .ok v) :=
  equity_value_conversion_branch wEnvC ⟨wRootC, []⟩
    ⟨wRootC, [⟨"opening", ⟨1, 1, 2026⟩, "EUR",
      [⟨"Assets", 9, 9⟩, ⟨"Equity.Opening", -9, -9⟩]⟩]⟩
    ("Assets", 9) (by decide) (by rfl)

/-- C7: in every committed opening transaction the asset split's amount is
the carried-forward balance and its value is the computed equity value `v`
(the conversion result), while the equity split's amount and value are both
`-v`. -/
theorem split_amounts_and_values (env : SynthEnv) (st st' : SynthState)
    (e : String × Rat) (hne : e.2 ≠ 0) (h : stepEntry env st e = .ok st') :
    ∃ v : Rat,
      openingEquityValue env (lookupOrCreate st.root e.1).1.commodity e.2 = .ok v ∧
      st'.trxs = st.trxs ++ [⟨env.descText, env.odate, env.currency,
        [⟨e.1, e.2, v⟩, ⟨env.equityAccountName, -v, -v⟩]⟩] := by
  rw [stepEntry, if_pos hne] at h
  cases hv : openingEquityValue env (lookupOrCreate st.root e.1).1.commodity e.2 with
  | error m => rw [hv] at h; cases h
  | ok v =>
      rw [hv] at h
      simp only [Except.ok.injEq] at h
      subst h
      exact ⟨v, rfl, rfl⟩

/-- A one-account book in USD, for the conversion path of the witness. -/
def wRootD : Acct := .node ⟨"Root", .root, false, none, 0, []⟩
  [.node ⟨"Assets", .asset, false, some "USD", 5, []⟩ []]

/-- Environment whose equity account is in EUR and whose price database
always quotes 7, exercising the converted-value path. -/
def wEnvD : SynthEnv :=
  ⟨"EUR", "opening", ⟨1, 1, 2026⟩, "Equity.Opening", some "EUR",
   fun _ _ _ _ => .ok 7⟩

theorem split_amounts_and_values_witness :
    ∃ v : Rat,
      openingEquityValue wEnvD
        (lookupOrCreate (⟨wRootD, []⟩ : SynthState).root "Assets").1.commodity 5 = .ok v ∧
      (⟨wRootD, [⟨"opening", ⟨1, 1, 2026⟩, "EUR",
          [⟨"Assets", 5, 7⟩, ⟨"Equity.Opening", -7, -7⟩]⟩]⟩ : SynthState).trxs =
        (⟨wRootD, []⟩ : SynthState).trxs ++
          [⟨wEnvD.descText, wEnvD.odate, wEnvD.currency,
            [⟨("Assets", (5 : Rat)).1, ("Assets", (5 : Rat)).2, v⟩,
             ⟨wEnvD.equityAccountName, -v, -v⟩]⟩] :=
  split_amounts_and_values wEnvD ⟨wRootD, []⟩
    ⟨wRootD, [⟨"opening", ⟨1, 1, 2026⟩, "EUR",
      [⟨"Assets", 5, 7⟩, ⟨"Equity.Opening", -7, -7⟩]⟩]⟩
    ("Assets", 5) (by decide) (by rfl)

/-- C8: the purge is total — it never throws — and for every book its
warnings are exactly one per split with a null parent reference (in visit
order, naming the account), while the surviving transactions are exactly
those that no split of any descendant account references: orphan splits are
skipped without stopping the destruction of the remaining splits' parents. -/
theorem purge_skips_orphan_splits (bf : BookFile) :
    (purgeBook bf).2 = allWarnings bf.root ∧
    (purgeBook bf).1.trxIds =
      bf.trxIds.filter (fun t => !(decide (t ∈ allParents bf.root))) := by
  rw [purgeBook, collectDestroyed_eq]
  exact ⟨rfl, rfl⟩

/-- C5: an existing file at the target path makes the preparation fail with
the file-exists error; in that case no result with an updated file system is
produced (neither file is written, nothing is copied or purged).  Moreover a
successful run adds the target to the file system, so re-running with the
same target fails fast with the same error. -/
theorem prepare_refuses_existing_target (fs : List (String × BookFile))
    (previous_file new_file : String) :
    (∀ bf, lookupFile fs new_file = some bf →
      prepare_new_year_file fs previous_file new_file =
        .error ("Target file " ++ new_file ++ " already exists.")) ∧
    (∀ fs' book warns,
      prepare_new_year_file fs previous_file new_file = .ok (fs', book, warns) →
      prepare_new_year_file fs' previous_file new_file =
        .error ("Target file " ++ new_file ++ " already exists.")) := by
  constructor
  · intro bf hbf
    rw [prepare_new_year_file, if_pos (by rw [hbf]; rfl)]
  · intro fs' book warns hok
    rw [prepare_new_year_file] at hok
    by_cases hex : (lookupFile fs new_file).isSome = true
    · rw [if_pos hex] at hok; cases hok
    · rw [if_neg hex] at hok
      cases hlp : lookupFile fs previous_file with
      | none => rw [hlp] at hok; cases hok
      | some bf =>
          rw [hlp] at hok
          simp only [Except.ok.injEq, Prod.mk.injEq] at hok
          obtain ⟨h1, -, -⟩ := hok
          rw [prepare_new_year_file, if_pos ?_]
          rw [← h1, lookupFile, if_pos rfl]
          rfl

theorem prepare_refuses_existing_target_witness :
    prepare_new_year_file
        [("new", ⟨.node ⟨"Root", .root, false, none, 0, []⟩ [], []⟩)] "prev" "new" =
      .error ("Target file " ++ "new" ++ " already exists.") :=
  (prepare_refuses_existing_target
      [("new", ⟨.node ⟨"Root", .root, false, none, 0, []⟩ [], []⟩)] "prev" "new").1
    ⟨.node ⟨"Root", .root, false, none, 0, []⟩ [], []⟩ (by rfl)

/-- C4 (amended): every successful preparation leaves the account hierarchy
of the returned book identical to the previous book's; and **provided the
previous book is well-formed** — the root account itself holds no splits,
no split has a null parent reference, and every transaction is referenced by
at least one split of a descendant account — the returned book moreover has
zero transactions and zero splits.  (The unconditional zero-splits claim is
false: an orphan split survives the purge, see the counterexample.) -/
theorem prepare_postcondition_amended (fs : List (String × BookFile))
    (previous_file new_file : String) (fs' : List (String × BookFile))
    (book : BookFile) (warns : List String) (bf : BookFile)
    (hprev : lookupFile fs previous_file = some bf)
    (hok : prepare_new_year_file fs previous_file new_file = .ok (fs', book, warns)) :
    skeleton book.root = skeleton bf.root ∧
    (bf.root.data.splitParents = [] →
     (∀ p ∈ descendantsNamed bf.root, none ∉ p.2.splitParents) →
     (∀ t ∈ bf.trxIds, t ∈ allParents bf.root) →
     book.trxIds = [] ∧ totalSplits book.root = 0) := by
  obtain ⟨broot, btrx⟩ := bf
  rw [prepare_new_year_file] at hok
  by_cases hex : (lookupFile fs new_file).isSome = true
  · rw [if_pos hex] at hok; cases hok
  · rw [if_neg hex, hprev] at hok
    simp only [Except.ok.injEq, Prod.mk.injEq] at hok
    obtain ⟨-, h2, -⟩ := hok
    rw [← h2, purgeBook, collectDestroyed_eq]
    refine ⟨skeleton_removeSplits broot _, ?_⟩
    intro hroot hsp htx
    have hall : ∀ p ∈ descendantsNamed broot, ∀ sp ∈ p.2.splitParents,
        keepSplit (allParents broot) sp = false := by
      intro p hp sp hsp'
      cases sp with
      | none => exact absurd (hsp' : none ∈ p.2.splitParents) (hsp p hp)
      | some t =>
          have ht : t ∈ allParents broot := by
            rw [allParents, mem_flatOver]
            exact ⟨p, hp, by simp [parentsOf, List.mem_filterMap]; exact hsp'⟩
          simp [keepSplit, ht]
    refine ⟨?_, ?_⟩
    · exact filterEqNil _ btrx (fun t ht => by simp [htx t ht])
    · cases broot with
      | node dat cs =>
          simp only [removeSplits, totalSplits]
          rw [show dat.splitParents = [] from hroot]
          simp only [List.filter_nil, List.length_nil, Nat.zero_add]
          refine totalSplitsList_remove_eq_zero cs _ "" ?_
          intro p hp sp hsp'
          exact hall p hp sp hsp'

/-- The previous-year file of the C4 counterexample: one asset account
holding a single split whose parent-transaction reference is null. -/
def cexOrphanFile : BookFile :=
  ⟨.node ⟨"Root", .root, false, none, 0, []⟩
     [.node ⟨"A", .asset, false, some "EUR", 5, [none]⟩ []], []⟩

/-- C4 (counterexample): preparing from a previous book that contains an
orphan split succeeds, yet the returned book still holds one split — not
zero as the claim states; the orphan is only warned about. -/
theorem prepare_postcondition_counterexample :
    prepare_new_year_file [("prev", cexOrphanFile)] "prev" "new" =
      .ok ([("new", cexOrphanFile), ("prev", cexOrphanFile)], cexOrphanFile,
        ["Split without parent transaction found in account A."]) ∧
    totalSplits cexOrphanFile.root = 1 :=
  ⟨by rfl, by rfl⟩

/-- The well-formed previous-year file of the C4 witness: one transaction,
referenced by one split of the only asset account. -/
def wFile4 : BookFile :=
  ⟨.node ⟨"Root", .root, false, none, 0, []⟩
     [.node ⟨"A", .asset, false, some "EUR", 5, [some 1]⟩ []], [1]⟩

theorem prepare_postcondition_witness :
    skeleton (⟨.node ⟨"Root", .root, false, none, 0, []⟩
        [.node ⟨"A", .asset, false, some "EUR", 5, []⟩ []], []⟩ : BookFile).root =
      skeleton wFile4.root ∧
    (wFile4.root.data.splitParents = [] →
     (∀ p ∈ descendantsNamed wFile4.root, none ∉ p.2.splitParents) →
     (∀ t ∈ wFile4.trxIds, t ∈ allParents wFile4.root) →
     (⟨.node ⟨"Root", .root, false, none, 0, []⟩
         [.node ⟨"A", .asset, false, some "EUR", 5, []⟩ []], []⟩ : BookFile).trxIds = [] ∧
     totalSplits (⟨.node ⟨"Root", .root, false, none, 0, []⟩
         [.node ⟨"A", .asset, false, some "EUR", 5, []⟩ []], []⟩ : BookFile).root = 0) :=
  prepare_postcondition_amended [("prev", wFile4)] "prev" "new"
    [("new", wFile4), ("prev", wFile4)]
    ⟨.node ⟨"Root", .root, false, none, 0, []⟩
       [.node ⟨"A", .asset, false, some "EUR", 5, []⟩ []], []⟩
    [] wFile4 (by rfl) (by rfl)

/-- C10: when the equity placeholder full name resolves to an existing
account, the bootstrap reuses it as found.  If the dot-joined opening full
name also resolves, nothing at all is written — the tree is returned
untouched and the found account's commodity is used as-is, whatever its
type, placeholder flag or commodity are.  If only the placeholder exists,
the sole change is a new opening-balances child appended below it: the
placeholder's own data is not modified (looking it up afterwards yields the
same account with just the one extra child). -/
theorem equity_accounts_reused_unchanged (root : Acct) (en eon cur : String)
    (ph : Acct) (hph : lookup_by_full_name root en = some ph) :
    (∀ eqa, lookup_by_full_name root (en ++ "." ++ eon) = some eqa →
      ensureEquityAccounts root en eon cur = (root, eqa.data.commodity)) ∧
    (lookup_by_full_name root (en ++ "." ++ eon) = none →
      (ensureEquityAccounts root en eon cur).1 =
        appendAtSegs root (splitDots en) (mkEquityOpening eon cur) ∧
      lookup_by_full_name ((ensureEquityAccounts root en eon cur).1) en =
        some (appendChild ph (mkEquityOpening eon cur))) := by
  constructor
  · intro eqa heq
    rw [ensureEquityAccounts, hph, heq]
  · intro hnone
    rw [ensureEquityAccounts, hph, hnone]
    exact ⟨rfl, lookupSegs_appendAtSegs root (splitDots en)
      (mkEquityOpening eon cur) ph hph⟩

/-- A new-year tree that already has both equity accounts, with deliberately
odd attributes (the placeholder flag off, an asset type, a gold commodity)
to exhibit that nothing is checked or modified on the reuse path. -/
def wRootE : Acct := .node ⟨"Root", .root, false, none, 0, []⟩
  [.node ⟨"Equity", .asset, false, some "XAU", 0, []⟩
     [.node ⟨"Opening", .asset, false, some "XAU", 0, []⟩ []]]

theorem equity_accounts_reused_unchanged_witness :
    ensureEquityAccounts wRootE "Equity" "Opening" "EUR" =
      (wRootE, (Acct.node ⟨"Opening", .asset, false, some "XAU", 0, []⟩ []).data.commodity) :=
  (equity_accounts_reused_unchanged wRootE "Equity" "Opening" "EUR"
      (.node ⟨"Equity", .asset, false, some "XAU", 0, []⟩
        [.node ⟨"Opening", .asset, false, some "XAU", 0, []⟩ []]) (by rfl)).1
    (.node ⟨"Opening", .asset, false, some "XAU", 0, []⟩ []) (by rfl)

/-- The first of the four required config keys missing from `config` — the
one whose lookup raises the `KeyError` that aborts the run. -/
def firstMissingKey (config : List (String × String)) : String :=
  if (config.lookup "equity_name").isNone then "equity_name"
  else if (config.lookup "equity_opening_name").isNone then "equity_opening_name"
  else if (config.lookup "opening_transaction_text").isNone then "opening_transaction_text"
  else "currency"

/-- C9: a config missing any of the four required keys makes the run fail
with a key-lookup error before anything happens at all: the final state is
the initial one — no file copied or written, no session opened, and in
particular the new-year session is never saved. -/
theorem missing_config_key_fails_before_save (env : RunEnv)
    (config : List (String × String)) (previous_file new_file : String)
    (opening_date : Date) (fs0 : List (String × BookFile)) (k : String)
    (hk : k ∈ ["equity_name", "equity_opening_name",
               "opening_transaction_text", "currency"])
    (hmiss : config.lookup k = none) :
    main env config previous_file new_file opening_date fs0 =
      (⟨fs0, false, false, false⟩,
       .error ("KeyError: " ++ firstMissingKey config)) := by
  cases h1 : config.lookup "equity_name" with
  | none => simp [main, cfgGet, h1, firstMissingKey]
  | some v1 =>
    cases h2 : config.lookup "equity_opening_name" with
    | none => simp [main, cfgGet, h1, h2, firstMissingKey]
    | some v2 =>
      cases h3 : config.lookup "opening_transaction_text" with
      | none => simp [main, cfgGet, h1, h2, h3, firstMissingKey]
      | some v3 =>
        cases h4 : config.lookup "currency" with
        | none => simp [main, cfgGet, h1, h2, h3, h4, firstMissingKey]
        | some v4 =>
            exfalso
            simp only [List.mem_cons, List.not_mem_nil, or_false] at hk
            rcases hk with rfl | rfl | rfl | rfl
            · rw [hmiss] at h1; cases h1
            · rw [hmiss] at h2; cases h2
            · rw [hmiss] at h3; cases h3
            · rw [hmiss] at h4; cases h4

theorem missing_config_key_fails_before_save_witness :
    main ⟨fun _ _ _ _ => .error "np"⟩
        [("equity_name", "Equity"), ("equity_opening_name", "Opening"),
         ("opening_transaction_text", "opening")] "prev" "new" ⟨1, 1, 2026⟩ [] =
      (⟨[], false, false, false⟩,
       .error ("KeyError: " ++ firstMissingKey
         [("equity_name", "Equity"), ("equity_opening_name", "Opening"),
          ("opening_transaction_text", "opening")])) :=
  missing_config_key_fails_before_save ⟨fun _ _ _ _ => .error "np"⟩
    [("equity_name", "Equity"), ("equity_opening_name", "Opening"),
     ("opening_transaction_text", "opening")] "prev" "new" ⟨1, 1, 2026⟩ [] "currency"
    (by simp) (by rfl)

/-- C6 (amended): both sessions are closed — and the book saved — on the
normal exit path, the only one on which the run returns a result.  The claim
as stated, that every exit path closes both sessions, is false: the closing
calls are not protected by any `finally`, so an exceptional exit after the
sessions are opened leaves them open (see the counterexample). -/
theorem sessions_closed_on_success (env : RunEnv)
    (config : List (String × String)) (previous_file new_file : String)
    (opening_date : Date) (fs0 : List (String × BookFile)) :
    ∀ res, (main env config previous_file new_file opening_date fs0).2 = .ok res →
      (main env config previous_file new_file opening_date fs0).1.prevOpen = false ∧
      (main env config previous_file new_file opening_date fs0).1.newOpen = false ∧
      (main env config previous_file new_file opening_date fs0).1.saved = true := by
  intro res
  simp only [main]
  repeat' split
  all_goals intro h
  all_goals try (exact ⟨rfl, rfl, rfl⟩)
  all_goals simp at h

/-- The previous-year file of the C6 counterexample: an asset account in USD
whose balance needs a price conversion. -/
def cexRunFile : BookFile :=
  ⟨.node ⟨"Root", .root, false, none, 0, []⟩
     [.node ⟨"Assets", .asset, false, some "USD", 5, [some 1]⟩ []], [1]⟩

/-- C6 (counterexample): with a price database that fails, the run exits
with the error after both sessions were opened — and the final state shows
both still open (`prevOpen = true`, `newOpen = true`): an exit path on which
neither session is closed. -/
theorem sessions_left_open_counterexample :
    main ⟨fun _ _ _ _ => .error "no price"⟩
        [("equity_name", "Equity"), ("equity_opening_name", "Opening"),
         ("opening_transaction_text", "opening"), ("currency", "EUR")]
        "prev" "new" ⟨1, 1, 2026⟩ [("prev", cexRunFile)] =
      (⟨[("new", cexRunFile), ("prev", cexRunFile)], true, true, false⟩,
       .error "no price") := by
  rfl

/-- The previous-year file of the C6 witness: a zero-balance asset account,
so the run succeeds without consulting the price database. -/
def wFile6 : BookFile :=
  ⟨.node ⟨"Root", .root, false, none, 0, []⟩
     [.node ⟨"Assets", .asset, false, some "EUR", 0, []⟩ []], []⟩

theorem sessions_closed_on_success_witness :
    (main ⟨fun _ _ _ _ => .error "np"⟩
        [("equity_name", "Equity"), ("equity_opening_name", "Opening"),
         ("opening_transaction_text", "opening"), ("currency", "EUR")]
        "prev" "new" ⟨1, 1, 2026⟩ [("prev", wFile6)]).1.prevOpen = false ∧
    (main ⟨fun _ _ _ _ => .error "np"⟩
        [("equity_name", "Equity"), ("equity_opening_name", "Opening"),
         ("opening_transaction_text", "opening"), ("currency", "EUR")]
        "prev" "new" ⟨1, 1, 2026⟩ [("prev", wFile6)]).1.newOpen = false ∧
    (main ⟨fun _ _ _ _ => .error "np"⟩
        [("equity_name", "Equity"), ("equity_opening_name", "Opening"),
         ("opening_transaction_text", "opening"), ("currency", "EUR")]
        "prev" "new" ⟨1, 1, 2026⟩ [("prev", wFile6)]).1.saved = true :=
  sessions_closed_on_success ⟨fun _ _ _ _ => .error "np"⟩
    [("equity_name", "Equity"), ("equity_opening_name", "Opening"),
     ("opening_transaction_text", "opening"), ("currency", "EUR")]
    "prev" "new" ⟨1, 1, 2026⟩ [("prev", wFile6)] [] (by rfl)

end NewYearTool
